import Mathlib

/-!
Verification of `density_sorting.py`: a program that reads whitespace-delimited
rows describing rectangular design layouts, computes polygon density per mm²
for each, and prints the collection sorted by density descending.

Python floats are modelled by `ℚ` and Python ints by `ℤ`; a raised exception is
modelled by `Except.error`.
-/

namespace DensitySorting

/-! ## Tokenisation: `line.strip().split()` -/

/-- Helper for `splitWs`: scans the characters, accumulating the current
token (in reverse) and emitting it at each whitespace run or at the end. -/
def splitWsAux : List Char → List Char → List String
  | [], acc => if acc.isEmpty then [] else [String.mk acc.reverse]
  | c :: cs, acc =>
    if c.isWhitespace then
      (if acc.isEmpty then [] else [String.mk acc.reverse]) ++ splitWsAux cs []
    else
      splitWsAux cs (c :: acc)

/-- Models Python `line.strip().split()`: splits on runs of whitespace,
producing no empty tokens (leading/trailing whitespace is ignored). -/
def splitWs (s : String) : List String :=
  splitWsAux s.toList []

/-! ## Numeric parsing: Python `float()` / `int()` on the token forms used -/

/-- Value of a list of decimal digit characters. -/
def digitsVal (cs : List Char) : Nat :=
  cs.foldl (fun n c => 10 * n + (c.toNat - 48)) 0

/-- Parses an unsigned fixed-point decimal (`"12"`, `"1.5"`, `"1."`, `".5"`);
any other form fails. Models the accepting core of Python `float()` on the
decimal token forms this program consumes. -/
def parseUnsignedFloat (cs : List Char) : Option ℚ :=
  let ip := cs.takeWhile (fun c => c != '.')
  match cs.dropWhile (fun c => c != '.') with
  | [] =>
    if ip.isEmpty || !ip.all Char.isDigit then none
    else some ((digitsVal ip : ℚ))
  | _ :: fp =>
    if (ip.isEmpty && fp.isEmpty) || !ip.all Char.isDigit || !fp.all Char.isDigit then none
    else some ((digitsVal ip : ℚ) + (digitsVal fp : ℚ) / (10 : ℚ) ^ fp.length)

/-- Models Python `float(s)` on this program's tokens: optional sign followed
by a fixed-point decimal; failure models a raised `ValueError`. -/
def parseFloat (s : String) : Option ℚ :=
  match s.toList with
  | '-' :: cs => (parseUnsignedFloat cs).map (fun q => -q)
  | '+' :: cs => parseUnsignedFloat cs
  | cs => parseUnsignedFloat cs

/-- Models Python `int(s)`: optional sign followed by a nonempty digit string;
failure models a raised `ValueError`. -/
def parseInt (s : String) : Option ℤ :=
  match s.toList with
  | '-' :: cs =>
    if cs.isEmpty || !cs.all Char.isDigit then none else some (-(digitsVal cs : ℤ))
  | '+' :: cs =>
    if cs.isEmpty || !cs.all Char.isDigit then none else some ((digitsVal cs : ℤ))
  | cs =>
    if cs.isEmpty || !cs.all Char.isDigit then none else some ((digitsVal cs : ℤ))

/-! ## The `Design` record -/

/-- One design block: the seven input fields plus the two derived fields the
constructor precomputes, mirroring `Design.__init__`. -/
structure Design where
  name : String
  lx : ℚ
  ly : ℚ
  ux : ℚ
  uy : ℚ
  poly_count : ℤ
  md5sum : String
  area_mm2 : ℚ
  density : ℚ
deriving Repr, DecidableEq

/-- Body of `Design._compute_area_mm2`: `(ux - lx) * (uy - ly) / 1_000_000.0`. -/
def computeAreaMm2 (lx ly ux uy : ℚ) : ℚ :=
  (ux - lx) * (uy - ly) / 1000000

/-- Body of `Design._compute_density`: `0.0` if the area is exactly zero,
otherwise `poly_count / area_mm2`. -/
def computeDensity (poly_count : ℤ) (area_mm2 : ℚ) : ℚ :=
  if area_mm2 = 0 then 0 else (poly_count : ℚ) / area_mm2

/-- `Design.__init__` called with already-numeric arguments: stores the seven
fields and precomputes `area_mm2` and `density`. -/
def Design.make (name : String) (lx ly ux uy : ℚ) (poly_count : ℤ) (md5sum : String) : Design :=
  Design.mk name lx ly ux uy poly_count md5sum
    (computeAreaMm2 lx ly ux uy)
    (computeDensity poly_count (computeAreaMm2 lx ly ux uy))

/-- `Design.__init__` called with the raw string tokens of an input row, as the
loader does: `float()` / `int()` coercion happens inside the constructor, in
argument order, and a parse failure is a raised `ValueError`. -/
def Design.ofTokens (name t1 t2 t3 t4 t5 t6 : String) : Except String Design :=
  match parseFloat t1 with
  | none => Except.error "ValueError"
  | some lx =>
  match parseFloat t2 with
  | none => Except.error "ValueError"
  | some ly =>
  match parseFloat t3 with
  | none => Except.error "ValueError"
  | some ux =>
  match parseFloat t4 with
  | none => Except.error "ValueError"
  | some uy =>
  match parseInt t5 with
  | none => Except.error "ValueError"
  | some pc => Except.ok (Design.make name lx ly ux uy pc t6)

/-- A `Design` whose derived fields are consistent with its stored fields, as
every record built by the constructor is. -/
def Design.WF (d : Design) : Prop :=
  d.area_mm2 = computeAreaMm2 d.lx d.ly d.ux d.uy ∧
  d.density = computeDensity d.poly_count d.area_mm2

instance (d : Design) : Decidable d.WF := by
  unfold Design.WF; infer_instance

/-- The seven constructor-argument fields of a record, without the derived ones. -/
def Design.baseFields (d : Design) : String × ℚ × ℚ × ℚ × ℚ × ℤ × String :=
  (d.name, d.lx, d.ly, d.ux, d.uy, d.poly_count, d.md5sum)

/-! ## The `Library` collection and the reporter -/

/-- The collection: an ordered list of records, mirroring `Library.designs`. -/
structure Library where
  designs : List Design
deriving Repr, DecidableEq

/-- `Library()` constructor: the empty collection. -/
def Library.init : Library := Library.mk []

/-- `Library.add_design`: appends at the end. -/
def Library.addDesign (lib : Library) (d : Design) : Library :=
  Library.mk (lib.designs ++ [d])

/-- The comparison underlying `sorted(self.designs, key=lambda d: d.density,
reverse=True)`: `a` may precede `b` when `a.density ≥ b.density`. -/
def densityGe (a b : Design) : Bool :=
  decide (b.density ≤ a.density)

/-- Python `sorted(..., key=lambda d: d.density, reverse=True)`: a stable sort
that orders by density descending. -/
def sortByDensityDesc (l : List Design) : List Design :=
  l.mergeSort densityGe

/-- Left-justify in a field of width `w` (Python `f"{s:<w>s}"`); never truncates. -/
def padRight (s : String) (w : Nat) : String :=
  s ++ String.mk (List.replicate (w - s.length) ' ')

/-- Right-justify in a field of width `w`; never truncates. -/
def padLeft (s : String) (w : Nat) : String :=
  String.mk (List.replicate (w - s.length) ' ') ++ s

/-- Zero-pad on the left to width `w`. -/
def padLeftZeros (s : String) (w : Nat) : String :=
  String.mk (List.replicate (w - s.length) '0') ++ s

/-- Rounds a rational to the nearest integer, ties to even, as Python's fixed
precision float formatting does. -/
def roundHalfEven (q : ℚ) : ℤ :=
  let n := q.num
  let d := (q.den : ℤ)
  let fl := Int.fdiv n d
  let r := n - d * fl
  if 2 * r < d then fl
  else if d < 2 * r then fl + 1
  else if fl % 2 = 0 then fl else fl + 1

/-- Fixed-point decimal rendering with `prec` digits (Python `f"{q:.<prec>f}"`). -/
def fmtFixed (q : ℚ) (prec : Nat) : String :=
  let n := roundHalfEven (q * (10 : ℚ) ^ prec)
  let m := n.natAbs
  let sign := if n < 0 then "-" else ""
  if prec = 0 then sign ++ toString (m : Nat)
  else sign ++ toString (m / 10 ^ prec) ++ "." ++ padLeftZeros (toString (m % 10 ^ prec)) prec

/-- The data-row f-string of `Library.print_by_density`. -/
def formatDesign (d : Design) : String :=
  padRight d.name 10 ++ " density=" ++ padLeft (fmtFixed d.density 6) 10 ++
  " poly/mm²   area=" ++ padLeft (fmtFixed d.area_mm2 2) 12 ++
  " mm²   polys=" ++ padLeft (toString d.poly_count) 6

/-- The header line printed first by `Library.print_by_density`. -/
def headerLine : String := "Designs sorted by density (high → low):"

/-- `Library.print_by_density`: builds a sorted view, prints the header and one
formatted line per record. Returns the printed lines and the post-state of the
collection (the method only reads `self.designs`). -/
def Library.printByDensity (lib : Library) : List String × Library :=
  let sorted_designs := sortByDensityDesc lib.designs
  (headerLine :: sorted_designs.map formatDesign, lib)

/-! ## The loader (`main`) -/

/-- The loop body of `main` over the lines after the header: a line whose
whitespace split is not exactly 7 tokens is skipped silently; otherwise a
`Design` is constructed from the 7 tokens in order, any construction error
propagating and aborting the remainder of the load. -/
def loadBody : List String → Except String (List Design)
  | [] => Except.ok []
  | line :: rest =>
    match splitWs line with
    | [name, t1, t2, t3, t4, t5, t6] =>
      match Design.ofTokens name t1 t2 t3 t4 t5 t6 with
      | Except.error e => Except.error e
      | Except.ok d =>
        match loadBody rest with
        | Except.error e => Except.error e
        | Except.ok ds => Except.ok (d :: ds)
    | _ => loadBody rest

/-- The reading phase of `main`: `file.readline()` discards the first line
unconditionally, then the remaining lines are processed by the loop. -/
def load (lines : List String) : Except String (List Design) :=
  loadBody lines.tail

/-- Whole-program behaviour of `main` on the lines of the input file: load all
records into a `Library`, then print the density report. An error is an
uncaught exception escaping `main`. -/
def main (lines : List String) : Except String (List String) :=
  (load lines).map (fun ds => ((ds.foldl Library.addDesign Library.init).printByDensity).1)

/-! ## Helper lemmas about the density comparison -/

theorem densityGe_trans : ∀ a b c : Design, densityGe a b → densityGe b c → densityGe a c := by
  intro a b c hab hbc
  simp only [densityGe, decide_eq_true_eq] at hab hbc ⊢
  exact le_trans hbc hab

theorem densityGe_total : ∀ a b : Design, densityGe a b || densityGe b a := by
  intro a b
  simp only [densityGe, Bool.or_eq_true, decide_eq_true_eq]
  exact le_total b.density a.density

/-- Processing a concatenation of line blocks composes: the records are those
of the first block followed by those of the second, and an error in either
block aborts the whole load. -/
theorem loadBody_append : ∀ (pre suf : List String),
    loadBody (pre ++ suf) =
      (loadBody pre).bind (fun ds => (loadBody suf).map (fun es => ds ++ es))
  | [], suf => by
    cases h : loadBody suf <;> simp [loadBody, h, Except.map, Except.bind]
  | p :: ps, suf => by
    rcases h7 : splitWs p with _ | ⟨a, _ | ⟨b, _ | ⟨c, _ | ⟨d, _ | ⟨e, _ | ⟨f, _ |
      ⟨g, _ | ⟨x, xs⟩⟩⟩⟩⟩⟩⟩⟩ <;>
      simp only [List.cons_append, loadBody, h7]
    case cons.cons.cons.cons.cons.cons.cons.nil =>
      cases hof : Design.ofTokens a b c d e f g
      case error => simp [Except.bind]
      case ok dd =>
        simp only [List.append_eq]
        rw [loadBody_append ps suf]
        cases hps : loadBody ps <;> cases hsuf : loadBody suf <;>
          simp [Except.bind, Except.map]
    all_goals exact loadBody_append ps suf

/-! ## Claim theorems -/

/-- C1: for every collection, the report of `print_by_density` is exactly the
header line followed by one formatted line per stored record; the records in
the rendered order are a permutation of the collection; the rendered order is
non-increasing in density for every adjacent pair; and an empty collection
yields only the header line. -/
theorem c1_print_by_density_report (lib : Library) :
    lib.printByDensity.1 = headerLine :: (sortByDensityDesc lib.designs).map formatDesign ∧
    (sortByDensityDesc lib.designs).Perm lib.designs ∧
    List.Chain' (fun a b : Design => b.density ≤ a.density) (sortByDensityDesc lib.designs) ∧
    (lib.designs = [] → lib.printByDensity.1 = [headerLine]) := by
  refine ⟨rfl, List.mergeSort_perm lib.designs densityGe, ?_, ?_⟩
  · have h : (sortByDensityDesc lib.designs).Pairwise (fun a b => densityGe a b = true) :=
      List.sorted_mergeSort densityGe_trans densityGe_total lib.designs
    exact (h.imp (fun hab => by simpa [densityGe] using hab)).chain'
  · intro h
    simp [Library.printByDensity, sortByDensityDesc, h]

/-- C1 witness: on the empty collection the report is just the header line. -/
theorem c1_print_by_density_report_witness :
    (Library.mk []).printByDensity.1 = [headerLine] :=
  (c1_print_by_density_report (Library.mk [])).2.2.2 rfl

/-- C2: for every record the constructor builds, the stored density equals
`poly_count / area_mm2` when `area_mm2` is not exactly zero, and equals `0.0`
when `area_mm2 = 0`; the guard is exact equality to zero. -/
theorem c2_density_formula (name : String) (lx ly ux uy : ℚ) (pc : ℤ) (md5 : String) :
    ((Design.make name lx ly ux uy pc md5).area_mm2 = 0 →
      (Design.make name lx ly ux uy pc md5).density = 0) ∧
    ((Design.make name lx ly ux uy pc md5).area_mm2 ≠ 0 →
      (Design.make name lx ly ux uy pc md5).density =
        (pc : ℚ) / (Design.make name lx ly ux uy pc md5).area_mm2) := by
  constructor <;> intro h <;> simp_all [Design.make, computeDensity]

/-- C2 witness: a concrete record with area `1 mm²` and 500 polygons has
density `500 / 1`. -/
theorem c2_density_formula_witness :
    (Design.make "a" 0 0 1000 1000 500 "x").density =
      ((500 : ℤ) : ℚ) / (Design.make "a" 0 0 1000 1000 500 "x").area_mm2 :=
  (c2_density_formula "a" 0 0 1000 1000 500 "x").2
    (by norm_num [Design.make, computeAreaMm2])

/-- C3: for every record the constructor builds, the stored `area_mm2` equals
`(ux - lx) * (uy - ly) / 1_000_000`. -/
theorem c3_area_formula (name : String) (lx ly ux uy : ℚ) (pc : ℤ) (md5 : String) :
    (Design.make name lx ly ux uy pc md5).area_mm2 = (ux - lx) * (uy - ly) / 1000000 :=
  rfl

/-- C4: the loader discards the first line unconditionally; a line whose
whitespace split does not have exactly 7 tokens produces no record and no
error; a 7-token line whose numeric tokens all parse is loaded as a record
built from the tokens in the fixed column order
`name, lx, ly, ux, uy, poly_count, checksum`. -/
theorem c4_loader_policy :
    (∀ (first : String) (rest : List String), load (first :: rest) = loadBody rest) ∧
    (∀ (line : String) (rest : List String), (splitWs line).length ≠ 7 →
      loadBody (line :: rest) = loadBody rest) ∧
    (∀ (line : String) (rest : List String) (n t1 t2 t3 t4 t5 t6 : String)
      (q1 q2 q3 q4 : ℚ) (z : ℤ),
      splitWs line = [n, t1, t2, t3, t4, t5, t6] →
      parseFloat t1 = some q1 → parseFloat t2 = some q2 →
      parseFloat t3 = some q3 → parseFloat t4 = some q4 →
      parseInt t5 = some z →
      Design.ofTokens n t1 t2 t3 t4 t5 t6 = Except.ok (Design.make n q1 q2 q3 q4 z t6) ∧
      loadBody (line :: rest) =
        (loadBody rest).map (fun ds => Design.make n q1 q2 q3 q4 z t6 :: ds)) := by
  refine ⟨fun first rest => rfl, ?_, ?_⟩
  · intro line rest hlen
    simp only [loadBody]
    split
    · rename_i n t1 t2 t3 t4 t5 t6 heq
      exact absurd (by rw [heq] ; rfl) hlen
    · rfl
  · intro line rest n t1 t2 t3 t4 t5 t6 q1 q2 q3 q4 z hsplit p1 p2 p3 p4 p5
    refine ⟨by simp [Design.ofTokens, p1, p2, p3, p4, p5], ?_⟩
    simp only [loadBody, hsplit, Design.ofTokens, p1, p2, p3, p4, p5]
    cases hlb : loadBody rest <;> simp [Except.map]

/-- C4 witness: a 2-token line is skipped with no record and no error, and a
well-formed 7-token line is parsed into a record in column order. -/
theorem c4_loader_policy_witness :
    loadBody ["ab cd"] = loadBody [] ∧
    Design.ofTokens "d" "0" "0" "1" "1" "5" "x" =
      Except.ok (Design.make "d" 0 0 1 1 5 "x") :=
  ⟨c4_loader_policy.2.1 "ab cd" [] (by decide),
   (c4_loader_policy.2.2 "d 0 0 1 1 5 x" [] "d" "0" "0" "1" "1" "5" "x" 0 0 1 1 5
      (by decide) (by decide) (by decide) (by decide) (by decide) (by decide)).1⟩

/-- C5: when a 7-token line has a numeric column that fails to parse, the
record constructor signals an error that the loader does not catch: however
many lines loaded successfully before it, the whole load results in that
error rather than the line being skipped. -/
theorem c5_parse_error_aborts (line : String) (n t1 t2 t3 t4 t5 t6 : String)
    (hsplit : splitWs line = [n, t1, t2, t3, t4, t5, t6])
    (hbad : parseFloat t1 = none ∨ parseFloat t2 = none ∨ parseFloat t3 = none ∨
      parseFloat t4 = none ∨ parseInt t5 = none) :
    ∃ e, Design.ofTokens n t1 t2 t3 t4 t5 t6 = Except.error e ∧
      ∀ (pre rest : List String) (ds : List Design), loadBody pre = Except.ok ds →
        loadBody (pre ++ line :: rest) = Except.error e := by
  have hof : Design.ofTokens n t1 t2 t3 t4 t5 t6 = Except.error "ValueError" := by
    rcases hbad with h | h | h | h | h
    · simp [Design.ofTokens, h]
    · cases h1 : parseFloat t1 <;> simp [Design.ofTokens, h1, h]
    · cases h1 : parseFloat t1 <;> cases h2 : parseFloat t2 <;>
        simp [Design.ofTokens, h1, h2, h]
    · cases h1 : parseFloat t1 <;> cases h2 : parseFloat t2 <;> cases h3 : parseFloat t3 <;>
        simp [Design.ofTokens, h1, h2, h3, h]
    · cases h1 : parseFloat t1 <;> cases h2 : parseFloat t2 <;> cases h3 : parseFloat t3 <;>
        cases h4 : parseFloat t4 <;> simp [Design.ofTokens, h1, h2, h3, h4, h]
  refine ⟨"ValueError", hof, ?_⟩
  intro pre rest ds hds
  have hline : loadBody (line :: rest) = Except.error "ValueError" := by
    simp only [loadBody, hsplit, hof]
  rw [loadBody_append, hds, hline]
  simp [Except.bind, Except.map]

/-- C5 witness: a 7-token line whose second column is not numeric aborts a
load in which a previous line had already produced a record. -/
theorem c5_parse_error_aborts_witness :
    ∃ e, Design.ofTokens "d" "a" "0" "1" "1" "5" "x" = Except.error e ∧
      loadBody ["ok 0 0 1 1 5 y", "d a 0 1 1 5 x"] = Except.error e := by
  obtain ⟨e, h1, h2⟩ := c5_parse_error_aborts "d a 0 1 1 5 x" "d" "a" "0" "1" "1" "5" "x"
    (by decide) (Or.inl (by decide))
  refine ⟨e, h1, ?_⟩
  have hpre : loadBody ["ok 0 0 1 1 5 y"] = Except.ok [Design.make "ok" 0 0 1 1 5 "y"] := by
    have s1 : splitWs "ok 0 0 1 1 5 y" = ["ok", "0", "0", "1", "1", "5", "y"] := by decide
    have f0 : parseFloat "0" = some 0 := by decide
    have f1 : parseFloat "1" = some 1 := by decide
    have i5 : parseInt "5" = some 5 := by decide
    simp [loadBody, s1, Design.ofTokens, f0, f1, i5]
  have := h2 ["ok 0 0 1 1 5 y"] [] [Design.make "ok" 0 0 1 1 5 "y"] hpre
  simpa using this

/-- C8: the sort used by the reporter is stable: for every density value, the
records of that density appear in the sorted view exactly as they appear in
the stored collection (same records, same relative order). -/
theorem c8_sort_stable (l : List Design) (q : ℚ) :
    (sortByDensityDesc l).filter (fun d => decide (d.density = q)) =
    l.filter (fun d => decide (d.density = q)) := by
  have hmem : ∀ d ∈ l.filter (fun d : Design => decide (d.density = q)), d.density = q := by
    intro d hd
    simpa using (List.mem_filter.mp hd).2
  have hpw : (l.filter (fun d : Design => decide (d.density = q))).Pairwise
      (fun a b => densityGe a b = true) := by
    apply List.pairwise_of_forall_mem_list
    intro a ha b hb
    simp [densityGe, hmem a ha, hmem b hb]
  have hsub : List.Sublist (l.filter (fun d : Design => decide (d.density = q))) l :=
    List.filter_sublist l
  have h1 : List.Sublist (l.filter (fun d : Design => decide (d.density = q)))
      (sortByDensityDesc l) :=
    List.sublist_mergeSort densityGe_trans densityGe_total hpw hsub
  have h2 := h1.filter (fun d : Design => decide (d.density = q))
  rw [List.filter_eq_self.mpr (fun a ha => by simpa using hmem a ha)] at h2
  have hperm : List.Perm ((sortByDensityDesc l).filter (fun d : Design => decide (d.density = q)))
      (l.filter (fun d : Design => decide (d.density = q))) :=
    (List.mergeSort_perm l densityGe).filter _
  exact (h2.eq_of_length hperm.length_eq.symm).symm

/-- C6 counterexample: the claim "ux < lx or uy < ly yields a zero or negative
area" fails when both dimensions are inverted: the record built from corners
`(2,2)`/`(1,1)` has `ux < lx` yet a strictly positive `area_mm2`. -/
theorem c6_counterexample :
    (Design.make "d" 2 2 1 1 5 "x").ux < (Design.make "d" 2 2 1 1 5 "x").lx ∧
    0 < (Design.make "d" 2 2 1 1 5 "x").area_mm2 := by
  constructor
  · norm_num [Design.make]
  · norm_num [Design.make, computeAreaMm2]

/-- C6 amended: no ordering invariant between corners is enforced — any corner
values are accepted and stored verbatim without error; a degenerate rectangle
(`ux = lx` or `uy = ly`) yields zero area; a rectangle inverted in at most one
dimension yields a zero or negative area (inversion in both dimensions yields
a positive area, see the counterexample); and a negative area together with a
positive `poly_count` yields a negative density rather than an error. -/
theorem c6_amended_no_corner_invariant (name : String) (lx ly ux uy : ℚ) (pc : ℤ)
    (md5 : String) :
    (Design.make name lx ly ux uy pc md5).lx = lx ∧
    (Design.make name lx ly ux uy pc md5).ux = ux ∧
    (ux = lx ∨ uy = ly → (Design.make name lx ly ux uy pc md5).area_mm2 = 0) ∧
    (ux ≤ lx → ly ≤ uy → (Design.make name lx ly ux uy pc md5).area_mm2 ≤ 0) ∧
    (uy ≤ ly → lx ≤ ux → (Design.make name lx ly ux uy pc md5).area_mm2 ≤ 0) ∧
    ((Design.make name lx ly ux uy pc md5).area_mm2 < 0 → 0 < pc →
      (Design.make name lx ly ux uy pc md5).density < 0) := by
  refine ⟨rfl, rfl, ?_, ?_, ?_, ?_⟩
  · rintro (h | h) <;> simp [Design.make, computeAreaMm2, h]
  · intro h1 h2
    simp only [Design.make, computeAreaMm2]
    have hp : (ux - lx) * (uy - ly) ≤ 0 := by nlinarith
    linarith
  · intro h1 h2
    simp only [Design.make, computeAreaMm2]
    have hp : (ux - lx) * (uy - ly) ≤ 0 := by nlinarith
    linarith
  · intro harea hpc
    simp only [Design.make] at harea ⊢
    simp only [computeDensity]
    rw [if_neg (ne_of_lt harea)]
    exact div_neg_of_pos_of_neg (by exact_mod_cast hpc) harea

/-- C6 amended witness: a rectangle inverted in x only has nonpositive
(indeed negative) area, and its density is negative. -/
theorem c6_amended_no_corner_invariant_witness :
    (Design.make "d" 2 0 1 1 5 "x").area_mm2 ≤ 0 ∧
    (Design.make "d" 2 0 1 1 5 "x").density < 0 :=
  ⟨(c6_amended_no_corner_invariant "d" 2 0 1 1 5 "x").2.2.2.1 (by norm_num) (by norm_num),
   (c6_amended_no_corner_invariant "d" 2 0 1 1 5 "x").2.2.2.2.2
     (by norm_num [Design.make, computeAreaMm2]) (by norm_num)⟩

/-- C7 counterexample: the loader accepts a row whose `poly_count` token is
`-5` and constructs a record with a negative `poly_count`, so it is not true
that every loader-constructed record has a non-negative `poly_count`. -/
theorem c7_counterexample :
    loadBody ["d 0 0 1 1 -5 x"] = Except.ok [Design.make "d" 0 0 1 1 (-5) "x"] ∧
    (Design.make "d" 0 0 1 1 (-5) "x").poly_count < 0 := by
  constructor
  · have s1 : splitWs "d 0 0 1 1 -5 x" = ["d", "0", "0", "1", "1", "-5", "x"] := by decide
    have f0 : parseFloat "0" = some 0 := by decide
    have f1 : parseFloat "1" = some 1 := by decide
    have i5 : parseInt "-5" = some (-5) := by decide
    simp [loadBody, s1, Design.ofTokens, f0, f1, i5]
  · norm_num [Design.make]

/-- C7 amended: `poly_count` is the integer parsed from the sixth column
token, stored without further validation — it is non-negative only when the
token denotes a non-negative integer. -/
theorem c7_amended_poly_count_parsed (n t1 t2 t3 t4 t5 t6 : String) (d : Design)
    (h : Design.ofTokens n t1 t2 t3 t4 t5 t6 = Except.ok d) :
    parseInt t5 = some d.poly_count := by
  simp only [Design.ofTokens] at h
  repeat' split at h
  all_goals try exact Except.noConfusion h
  injection h with h2
  subst h2
  simp only [Design.make]
  assumption

/-- C7 amended witness: a record loaded with token `"7"` stores exactly the
parsed value 7. -/
theorem c7_amended_poly_count_parsed_witness :
    parseInt "7" = some (Design.make "d" 0 0 1 1 7 "x").poly_count :=
  c7_amended_poly_count_parsed "d" "0" "0" "1" "1" "7" "x"
    (Design.make "d" 0 0 1 1 7 "x") (by
      have f0 : parseFloat "0" = some 0 := by decide
      have f1 : parseFloat "1" = some 1 := by decide
      have i7 : parseInt "7" = some 7 := by decide
      simp [Design.ofTokens, f0, f1, i7])

/-- C9: `print_by_density` leaves the stored collection unchanged (the sorted
view is separate), and `add_design` only appends the given record at the end,
preserving all previously stored records and their order. -/
theorem c9_no_mutation (lib : Library) (d : Design) :
    lib.printByDensity.2 = lib ∧ (lib.addDesign d).designs = lib.designs ++ [d] :=
  ⟨rfl, rfl⟩

/-- Two constructor-built records with the same constructor arguments are
equal: the derived fields are determined by the stored ones. -/
theorem Design.eq_of_baseFields (d e : Design) (hd : d.WF) (he : e.WF)
    (h : d.baseFields = e.baseFields) : d = e := by
  obtain ⟨n1, a1, b1, c1, d1, p1, m1, ar1, de1⟩ := d
  obtain ⟨n2, a2, b2, c2, d2, p2, m2, ar2, de2⟩ := e
  simp only [Design.baseFields, Prod.mk.injEq] at h
  obtain ⟨h1, h2, h3, h4, h5, h6, h7⟩ := h
  obtain ⟨hd1, hd2⟩ := hd
  obtain ⟨he1, he2⟩ := he
  simp_all [Design.WF]

/-- Lifts `Design.eq_of_baseFields` to lists of records. -/
theorem designs_eq_of_baseFields : ∀ (xs ys : List Design),
    (∀ d ∈ xs, d.WF) → (∀ d ∈ ys, d.WF) →
    xs.map Design.baseFields = ys.map Design.baseFields → xs = ys
  | [], [], _, _, _ => rfl
  | [], _ :: _, _, _, h => by simp at h
  | _ :: _, [], _, _, h => by simp at h
  | x :: xs, y :: ys, h1, h2, h => by
    simp only [List.map_cons, List.cons.injEq] at h
    have hx := Design.eq_of_baseFields x y (h1 x (by simp)) (h2 y (by simp)) h.1
    have hxs := designs_eq_of_baseFields xs ys
      (fun d hd => h1 d (by simp [hd])) (fun d hd => h2 d (by simp [hd])) h.2
    simp [hx, hxs]

/-- C10: the report is a deterministic function of the stored field values:
two collections of constructor-built records whose sequences agree on all
seven stored fields produce character-for-character identical output. -/
theorem c10_report_deterministic (l1 l2 : Library)
    (hwf1 : ∀ d ∈ l1.designs, d.WF) (hwf2 : ∀ d ∈ l2.designs, d.WF)
    (h : l1.designs.map Design.baseFields = l2.designs.map Design.baseFields) :
    l1.printByDensity.1 = l2.printByDensity.1 := by
  have hds : l1.designs = l2.designs := designs_eq_of_baseFields _ _ hwf1 hwf2 h
  simp [Library.printByDensity, sortByDensityDesc, hds]

/-- C10 witness: a record built by the constructor and a literal record with
the same fields and consistent derived values yield identical reports. -/
theorem c10_report_deterministic_witness :
    (Library.mk [Design.make "a" 0 0 1000 1000 500 "x"]).printByDensity.1 =
    (Library.mk [Design.mk "a" 0 0 1000 1000 500 "x" 1 500]).printByDensity.1 :=
  c10_report_deterministic
    (Library.mk [Design.make "a" 0 0 1000 1000 500 "x"])
    (Library.mk [Design.mk "a" 0 0 1000 1000 500 "x" 1 500])
    (by
      intro d hd
      simp only [Library.mk.injEq, List.mem_singleton] at hd
      subst hd
      constructor <;> rfl)
    (by
      intro d hd
      simp only [Library.mk.injEq, List.mem_singleton] at hd
      subst hd
      constructor
      · norm_num [Design.WF, computeAreaMm2]
      · norm_num [Design.WF, computeDensity, computeAreaMm2])
    (by
      simp only [List.map_cons, List.map_nil, List.cons.injEq, and_true]
      norm_num [Design.make, Design.baseFields])

end DensitySorting
